import Mathlib

set_option maxRecDepth 8000

/-!
Verification of the core behaviours of the buyly cloud-functions repository:
the budget-alert monthly-deduplication procedure (`checkBudgetAlert`), the
bulk-write batching pattern (`bulkUpdateTodosWithCreatedAt`,
`fetchAllUsersAndSaveToFirestore`, `onUserDeleted`), the grocery-item fan-out
notification delivery (`onGroceryItemAdded`), and the receipt-item validator
(`validateReceiptItems`).  Each TypeScript function is shallowly embedded as an
executable Lean definition; external collaborators (document store, auth
provider, email/push senders) are modelled as explicit inputs and oracles, and
every observable side effect is recorded in an action trace.
-/

namespace Buyly

/-! ## JavaScript value model (receipt validator)

`validateReceiptItems` in
`src/supabase-functions/supabase/functions/extract-receipt/index.ts` inspects a
dynamically-typed JSON value.  We model the JavaScript values that can reach it:
`num q` is a finite number; `nan`, `inf` and `ninf` are the non-finite numbers
(`typeof` still reports `"number"` for them, but `isFinite` is `false`). -/

inductive JSVal where
  | undefinedV
  | nullV
  | bool (b : Bool)
  | num (q : Rat)
  | nan
  | inf
  | ninf
  | str (s : String)
  | obj (fields : List (String × JSVal))
  | arr (elems : List JSVal)

/-- Property access `v[k]` as used by the destructuring `const {i, p} = item`:
object fields are looked up by key; every other value yields `undefined`
(arrays have no `"i"`/`"p"` properties). -/
def JSVal.getField (v : JSVal) (k : String) : JSVal :=
  match v with
  | .obj fields =>
    match fields.find? (fun f => f.1 == k) with
    | some f => f.2
    | none => .undefinedV
  | _ => .undefinedV

/-- Truth of `typeof item === "object"`: objects, arrays and `null`. -/
def JSVal.typeofIsObject : JSVal → Bool
  | .obj _ => true
  | .arr _ => true
  | .nullV => true
  | _ => false

/-- Truth of `item === null`. -/
def JSVal.isNull : JSVal → Bool
  | .nullV => true
  | _ => false

/-- A validated receipt item `{i: name, p: price}`. -/
structure ReceiptItem where
  i : String
  p : Rat
deriving DecidableEq, Repr

/-- JavaScript `s.trim()`: drop whitespace from both ends (written over the
character list so that it evaluates by kernel reduction). -/
def jsTrim (s : String) : String :=
  String.mk
    (((s.data.dropWhile Char.isWhitespace).reverse.dropWhile
        Char.isWhitespace).reverse)

/-- Body of the `data.map((item, index) => ...)` callback of
`validateReceiptItems`.  `hasValidName` is `typeof i === "string" && i.trim()
!== ""`; `hasValidPrice` is `typeof p === "number" && p > 0 && isFinite(p)`
(so `NaN`, `Infinity` and `-Infinity` all fail it, matching the `_ => 0`
arm below). -/
def validateReceiptItem (item : JSVal) : ReceiptItem :=
  if !item.typeofIsObject || item.isNull then
    { i := "unknown", p := 0 }
  else
    let i := item.getField "i"
    let p := item.getField "p"
    let itemName :=
      match i with
      | .str s => if jsTrim s == "" then "unknown" else jsTrim s
      | _ => "unknown"
    let itemPrice :=
      match p with
      | .num q => if 0 < q then q else 0
      | _ => 0
    { i := itemName, p := itemPrice }

/-- The manual validation function `validateReceiptItems`: throws
`"Response must be an array"` unless the payload is an array, otherwise maps
the per-item validator over it. -/
def validateReceiptItems (data : JSVal) : Except String (List ReceiptItem) :=
  match data with
  | .arr elems => .ok (elems.map validateReceiptItem)
  | _ => .error "Response must be an array"

/-- Modelled from the spec wording of the response-schema contract (an unknown
name defaults to a sentinel string, an invalid price defaults to zero): the
item an element should validate to, written directly from the claim.  Compared
against `validateReceiptItem` in the C9 theorem. -/
def specReceiptItem (item : JSVal) : ReceiptItem :=
  { i :=
      match item.getField "i" with
      | .str s => if jsTrim s ≠ "" then jsTrim s else "unknown"
      | _ => "unknown"
    p :=
      match item.getField "p" with
      | .num q => if 0 < q then q else 0
      | _ => 0 }

/-! ## Bulk-write batching

Three bulk writers stage operations into Firestore write batches.
`bulkUpdateTodosWithCreatedAt` (`src/scripts/bulkUpdateTodos.ts`) and
`fetchAllUsersAndSaveToFirestore`
(`src/firebase-functions/functions/scripts/fetchUsersToFirestore.ts`) chunk the
staged operations at the 500-operation ceiling; `onUserDeleted`
(`src/firebase-functions/functions/src/functions/onUserDeleted/index.ts`)
stages all of a collection's matching documents into a single batch and commits
it once.  Each embedding returns the list of committed batches, where a batch
is the list of staged document ids in staging order. -/

/-- A todo document as seen by the bulk update script: its id and whether a
`createdAt` field is already present (such documents are skipped). -/
structure TodoDoc where
  id : String
  hasCreatedAt : Bool
deriving DecidableEq, Repr

/-- Loop of `bulkUpdateTodosWithCreatedAt` over the snapshot docs: `cur` is the
current batch's staged ids (`batchCount = cur.length`); on reaching 500 the
batch is committed and reset, and after the loop a non-empty remainder batch is
committed. -/
def buLoop : List TodoDoc → List String → List (List String)
  | [], cur => if cur.isEmpty then [] else [cur]
  | d :: rest, cur =>
    if d.hasCreatedAt then
      buLoop rest cur
    else
      let cur2 := cur ++ [d.id]
      if cur2.length = 500 then cur2 :: buLoop rest [] else buLoop rest cur2

/-- Committed batches of `bulkUpdateTodosWithCreatedAt` on a todos snapshot. -/
def bulkUpdateTodosBatches (todos : List TodoDoc) : List (List String) :=
  buLoop todos []

/-- The ids actually staged by the bulk update (docs without `createdAt`). -/
def todoTargets (todos : List TodoDoc) : List String :=
  (todos.filter (fun d => !d.hasCreatedAt)).map TodoDoc.id

/-- Loop of `fetchAllUsersAndSaveToFirestore` over `allUsers`: every user is
staged; the batch is committed when `batchCount === batchSize` or at the last
index (`i === allUsers.length - 1`), then reset. -/
def fuLoop : List String → List String → List (List String)
  | [], _ => []
  | u :: rest, cur =>
    let cur2 := cur ++ [u]
    if cur2.length = 500 ∨ rest.isEmpty then cur2 :: fuLoop rest []
    else fuLoop rest cur2

/-- Committed batches of `fetchAllUsersAndSaveToFirestore` on a uid list. -/
def fetchUsersBatches (uids : List String) : List (List String) :=
  fuLoop uids []

/-- Batches committed by `onUserDeleted` for one queried collection (shown for
the grocery-items query): every matching doc is staged into one batch via
`forEach`, and the batch is committed once when the snapshot is non-empty.
There is no 500-operation chunking in this function. -/
def onUserDeletedGroceryItemBatches (docs : List String) : List (List String) :=
  if docs.isEmpty then [] else [docs]

/-- Reference chunking: split a list into consecutive runs of 500.  Both
chunked writers are proved equal to this. -/
def chunks500 {α : Type} : List α → List (List α)
  | [] => []
  | x :: xs => ((x :: xs).take 500) :: chunks500 ((x :: xs).drop 500)
termination_by l => l.length
decreasing_by
  simp only [List.length_drop, List.length_cons]
  omega

/-! ## Budget alert monitor

Embedding of `checkBudgetAlert` (the `onDocumentCreated` handler on
`history-items/{documentId}`).  The Firestore state is a `Store`; ambient data
(current date, the auth provider, whether the email send succeeds) is an
`Env`.  Every external interaction appends an `Action` to the trace, and the
handler returns the new store, the trace, and how the invocation ended. -/

/-- Truth of JavaScript `!s` for an optional string field: `undefined` and the
empty string are falsy. -/
def jsStrFalsy : Option String → Bool
  | none => true
  | some s => s == ""

/-- Truth of JavaScript `!b` for an optional numeric field: `undefined` and `0`
are falsy (the code guards `if (!userData?.budget)`). -/
def jsNumFalsy : Option Rat → Bool
  | none => true
  | some b => b == 0

/-- A `history-items` document: the fields `checkBudgetAlert` reads.  A `none`
`totalAmount` models a missing/undefined field (summed as 0 via
`item.totalAmount || 0`). -/
structure HistoryItem where
  userId : Option String
  date : String
  totalAmount : Option Rat
deriving DecidableEq, Repr

/-- A `users` document: only the `budget` field is consulted. -/
structure UserDoc where
  budget : Option Rat
deriving DecidableEq, Repr

/-- An auth-provider user record (`admin.auth().getUser`). -/
structure AuthUser where
  email : Option String
  displayName : Option String
deriving DecidableEq, Repr

/-- The payload handed to `sendBudgetAlertEmail`. -/
structure BudgetAlertData where
  userName : String
  monthlyBudget : Rat
  amountSpent : Rat
  percentageSpent : Rat
deriving DecidableEq, Repr

/-- The `budget-alerts` deduplication document (keyed by
`userId_year_month`; the wall-clock `sentAt` string is not modelled). -/
structure AlertRecord where
  userId : String
  email : String
  monthlyBudget : Rat
  amountSpent : Rat
  percentageSpent : Rat
  month : Nat
  year : Nat
deriving DecidableEq, Repr

/-- The Firestore collections `checkBudgetAlert` touches. -/
structure Store where
  users : List (String × UserDoc)
  historyItems : List HistoryItem
  budgetAlerts : List (String × AlertRecord)
deriving DecidableEq, Repr

/-- Observable side effects of one invocation, in order. -/
inductive Action where
  | userFetch (userId : String)
  | authLookup (userId : String)
  | historyQuery (userId : String)
  | dedupLookup (key : String)
  | sendEmail (recipient : String) (payload : BudgetAlertData)
  | writeAlert (key : String) (record : AlertRecord)
deriving DecidableEq, Repr

/-- How an invocation ends: an early return, a sent alert, or a thrown error
(the catch block logs and rethrows). -/
inductive RunResult where
  | noop
  | sent
  | errorThrown
deriving DecidableEq, Repr

/-- Ambient input: the current date (as `getFullYear`/`getMonth` and the ISO
month-window boundaries), the auth provider contents, and whether the email
collaborator succeeds. -/
structure Env where
  year : Nat
  month : Nat
  startIso : String
  endIso : String
  auth : List (String × AuthUser)
  emailOk : Bool
deriving DecidableEq, Repr

/-- Deduplication document id: backtick template
`userId_${year}_${month}` with an underscore separator. -/
def dedupKey (userId : String) (year month : Nat) : String :=
  userId ++ "_" ++ toString year ++ "_" ++ toString month

/-- Read of `users/{userId}` (`userDoc.exists` / `userDoc.data()`). -/
def userLookup (st : Store) (userId : String) : Option UserDoc :=
  (st.users.find? (fun p => p.1 == userId)).map (fun p => p.2)

/-- Read of `budget-alerts/{key}` (`alertDoc.exists`). -/
def alertLookup (st : Store) (key : String) : Option AlertRecord :=
  (st.budgetAlerts.find? (fun p => p.1 == key)).map (fun p => p.2)

/-- The auth provider lookup `admin.auth().getUser(userId)`; `none` means the
lookup throws. -/
def authGetUser (env : Env) (userId : String) : Option AuthUser :=
  (env.auth.find? (fun p => p.1 == userId)).map (fun p => p.2)

/-- Lexicographic code-point comparison of character lists: the semantics of
JavaScript string `<=` on the ISO date strings. -/
def charListLe : List Char → List Char → Bool
  | [], _ => true
  | _ :: _, [] => false
  | a :: as, b :: bs =>
    if a.toNat < b.toNat then true
    else if b.toNat < a.toNat then false
    else charListLe as bs

/-- JavaScript string comparison `a <= b`. -/
def jsStrLe (a b : String) : Bool :=
  charListLe a.data b.data

/-- The month query and sum: all history items of this user whose ISO `date`
lies in `[startIso, endIso]`, summing `totalAmount || 0`. -/
def monthSpend (st : Store) (userId startIso endIso : String) : Rat :=
  ((st.historyItems.filter
      (fun r => r.userId == some userId &&
        jsStrLe startIso r.date && jsStrLe r.date endIso)).map
    (fun r => r.totalAmount.getD 0)).sum

/-- The `displayName || "there"` fallback for the email salutation. -/
def salutation : Option String → String
  | none => "there"
  | some n => if n == "" then "there" else n

/-- One invocation of the `checkBudgetAlert` handler. -/
def checkBudgetAlert (env : Env) (event : Option HistoryItem) (st : Store) :
    Store × List Action × RunResult :=
  match event with
  | none => (st, [], .noop)
  | some historyData =>
    if jsStrFalsy historyData.userId then (st, [], .noop)
    else
      let userId := historyData.userId.getD ""
      let t1 := [Action.userFetch userId]
      match userLookup st userId with
      | none => (st, t1, .noop)
      | some userData =>
        if jsNumFalsy userData.budget then (st, t1, .noop)
        else
          let monthlyBudget := userData.budget.getD 0
          let t2 := t1 ++ [Action.authLookup userId]
          match authGetUser env userId with
          | none => (st, t2, .errorThrown)
          | some userRecord =>
            if jsStrFalsy userRecord.email then (st, t2, .noop)
            else
              let email := userRecord.email.getD ""
              let t3 := t2 ++ [Action.historyQuery userId]
              let totalSpent := monthSpend st userId env.startIso env.endIso
              let percentageSpent := totalSpent / monthlyBudget * 100
              if 50 ≤ percentageSpent then
                let key := dedupKey userId env.year env.month
                let t4 := t3 ++ [Action.dedupLookup key]
                match alertLookup st key with
                | some _ => (st, t4, .noop)
                | none =>
                  let payload : BudgetAlertData :=
                    { userName := salutation userRecord.displayName
                      monthlyBudget := monthlyBudget
                      amountSpent := totalSpent
                      percentageSpent := percentageSpent }
                  let t5 := t4 ++ [Action.sendEmail email payload]
                  if env.emailOk then
                    let record : AlertRecord :=
                      { userId := userId
                        email := email
                        monthlyBudget := monthlyBudget
                        amountSpent := totalSpent
                        percentageSpent := percentageSpent
                        month := env.month
                        year := env.year }
                    (⟨st.users, st.historyItems,
                        (key, record) :: st.budgetAlerts⟩,
                      t5 ++ [Action.writeAlert key record], .sent)
                  else (st, t5, .errorThrown)
              else (st, t3, .noop)

/-- Serialized (non-concurrent) invocations threading the store. -/
def runSeq : List (Env × Option HistoryItem) → Store → Store
  | [], st => st
  | i :: rest, st => runSeq rest (checkBudgetAlert i.1 i.2 st).1

/-- Number of `budget-alerts` documents stored under a given key. -/
def countKey (st : Store) (key : String) : Nat :=
  (st.budgetAlerts.filter (fun p => p.1 == key)).length

/-! ## Grocery-item fan-out

Embedding of `onGroceryItemAdded` (the `onDocumentCreated` handler on
`grocery-items/{itemId}`).  Per-recipient external failures are injected via
the oracles `notifAddOk` (the `notifications` collection `add`) and `pushOk`
(`sendBulkPushNotifications`); each recipient's unit of work is wrapped in a
try/catch that logs and continues. -/

/-- A `grocery-lists` document: the fields the handler reads. -/
structure GroceryList where
  owner : Option String
  members : List String
deriving DecidableEq, Repr

/-- The created `grocery-items` document, reduced to the fields that drive
control flow. -/
structure GroceryItemData where
  groceryListId : Option String
  name : String
  userId : String
deriving DecidableEq, Repr

/-- A `users` document in the fan-out path: its push tokens. -/
structure GUser where
  pushTokens : List String
deriving DecidableEq, Repr

/-- Observable side effects of the fan-out handler, in order. -/
inductive GAction where
  | listFetch (listId : String)
  | adderFetch (userId : String)
  | createNotification (recipient : String)
  | recipientFetch (recipient : String)
  | pushSend (recipient : String) (tokens : List String)
  | logMemberError (recipient : String)
deriving DecidableEq, Repr

/-- How the fan-out handler ends.  `raised` would mean an error escaped the
handler; the embedding proves it is never produced (both the per-member catch
and the outer catch swallow errors). -/
inductive GResult where
  | skipped
  | completed
  | raised
deriving DecidableEq, Repr

/-- Keep the first occurrence of each element, dropping later duplicates,
carrying the set of elements seen so far. -/
def dedupFirstAux (seen : List String) : List String → List String
  | [] => []
  | x :: xs =>
    if seen.contains x then dedupFirstAux seen xs
    else x :: dedupFirstAux (x :: seen) xs

/-- Order-preserving deduplication: the semantics of
`Array.from(new Set(...))`. -/
def dedupFirst (l : List String) : List String :=
  dedupFirstAux [] l

/-- The recipient computation: `[owner, ...members].filter(Boolean)`
deduplicated in order, with the item's creator removed. -/
def membersToNotify (owner : Option String) (members : List String)
    (adderId : String) : List String :=
  let allMembers := dedupFirst ((owner.toList ++ members).filter
    (fun s => s != ""))
  allMembers.filter (fun m => m != adderId)

/-- One recipient's unit of work inside the try block: create the notification
document, fetch the recipient's user document, and send the push when tokens
exist.  Returns the actions that happened and whether the unit completed
without throwing. -/
def memberWork (users : List (String × GUser)) (notifAddOk pushOk : String → Bool)
    (memberId : String) : List GAction × Bool :=
  if notifAddOk memberId then
    let t1 := [GAction.createNotification memberId,
      GAction.recipientFetch memberId]
    let tokens :=
      match (users.find? (fun p => p.1 == memberId)).map (fun p => p.2) with
      | some u => u.pushTokens
      | none => []
    if tokens.isEmpty then (t1, true)
    else if pushOk memberId then (t1 ++ [GAction.pushSend memberId tokens], true)
    else (t1, false)
  else ([], false)

/-- Trace contributed by one recipient after the catch: the unit's actions,
followed by the logged error when the unit threw. -/
def memberSegment (users : List (String × GUser))
    (notifAddOk pushOk : String → Bool) (memberId : String) : List GAction :=
  let w := memberWork users notifAddOk pushOk memberId
  w.1 ++ (if w.2 then [] else [GAction.logMemberError memberId])

/-- The `for (const memberId of membersToNotify)` loop with its per-member
try/catch. -/
def notifyLoop (users : List (String × GUser))
    (notifAddOk pushOk : String → Bool) : List String → List GAction
  | [] => []
  | m :: rest =>
    memberSegment users notifAddOk pushOk m ++
      notifyLoop users notifAddOk pushOk rest

/-- Read of `grocery-lists/{groceryListId}`. -/
def listLookup (lists : List (String × GroceryList)) (listId : String) :
    Option GroceryList :=
  (lists.find? (fun p => p.1 == listId)).map (fun p => p.2)

/-- One invocation of the `onGroceryItemAdded` handler. -/
def onGroceryItemAdded (lists : List (String × GroceryList))
    (users : List (String × GUser)) (notifAddOk pushOk : String → Bool)
    (event : Option GroceryItemData) : List GAction × GResult :=
  match event with
  | none => ([], .skipped)
  | some itemData =>
    if jsStrFalsy itemData.groceryListId then ([], .skipped)
    else
      let groceryListId := itemData.groceryListId.getD ""
      let t0 := [GAction.listFetch groceryListId]
      match listLookup lists groceryListId with
      | none => (t0, .skipped)
      | some listData =>
        let toNotify :=
          membersToNotify listData.owner listData.members itemData.userId
        if toNotify.isEmpty then (t0, .skipped)
        else
          let t1 := t0 ++ [GAction.adderFetch itemData.userId]
          (t1 ++ notifyLoop users notifAddOk pushOk toNotify, .completed)

/-! ## Concrete scenario data

A June-2025 user (`getMonth()` is 0-based, so June is month 5) used by the
scenario theorem and the witnesses. -/

/-- Ambient data for the scenario: June 2025 window, one auth user, email
delivery succeeding. -/
def demoEnv : Env :=
  { year := 2025
    month := 5
    startIso := "2025-06-01T00:00:00.000Z"
    endIso := "2025-06-30T23:59:59.000Z"
    auth := [("u1", { email := some "u1@example.com"
                      displayName := some "Ada" })]
    emailOk := true }

/-- The triggering history item: a new 100-unit spending record. -/
def demoTrigger : HistoryItem :=
  { userId := some "u1"
    date := "2025-06-20T12:00:00.000Z"
    totalAmount := some 100 }

/-- Store at trigger time: budget 1000; current-month records worth 450 plus
one with a missing amount, one out-of-window record, and the new 100-unit
record; no alert yet. -/
def demoStore : Store :=
  { users := [("u1", { budget := some 1000 })]
    historyItems :=
      [{ userId := some "u1", date := "2025-06-05T10:00:00.000Z",
         totalAmount := some 450 },
       { userId := some "u1", date := "2025-06-10T09:00:00.000Z",
         totalAmount := none },
       { userId := some "u1", date := "2025-05-02T08:00:00.000Z",
         totalAmount := some 999 },
       demoTrigger]
    budgetAlerts := [] }

/-- The alert record the scenario produces. -/
def demoRec : AlertRecord :=
  { userId := "u1"
    email := "u1@example.com"
    monthlyBudget := 1000
    amountSpent := 550
    percentageSpent := 55
    month := 5
    year := 2025 }

/-- The scenario store after the alert has been recorded. -/
def demoStoreAlerted : Store :=
  { demoStore with budgetAlerts := [("u1_2025_5", demoRec)] }

/-- A store for the same user with no spending at all this month. -/
def demoStoreNoSpend : Store :=
  { users := [("u1", { budget := some 1000 })]
    historyItems := []
    budgetAlerts := [] }

/-! ## Theorems -/

theorem validateReceiptItem_eq_spec (item : JSVal) :
    validateReceiptItem item = specReceiptItem item := by
  cases item <;>
    simp [validateReceiptItem, specReceiptItem, JSVal.typeofIsObject,
      JSVal.isNull, JSVal.getField]

theorem chunks500_nil {α : Type} : chunks500 ([] : List α) = [] := by
  rw [chunks500]

theorem chunks500_cons_eq {α : Type} (x : α) (xs : List α) :
    chunks500 (x :: xs) =
      ((x :: xs).take 500) :: chunks500 ((x :: xs).drop 500) := by
  rw [chunks500]

theorem chunks500_eq_of_ne_nil {α : Type} (l : List α) (h : l ≠ []) :
    chunks500 l = l.take 500 :: chunks500 (l.drop 500) := by
  obtain ⟨x, xs, rfl⟩ := List.exists_cons_of_ne_nil h
  exact chunks500_cons_eq x xs

theorem chunks500_length {α : Type} (l : List α) :
    (chunks500 l).length = (l.length + 499) / 500 := by
  induction l using chunks500.induct with
  | case1 => rw [chunks500_nil]; simp
  | case2 x xs ih =>
    rw [chunks500_cons_eq]
    simp only [List.length_cons, List.length_drop] at ih ⊢
    omega

theorem chunks500_sizes {α : Type} (l : List α) :
    ∀ b ∈ chunks500 l, b.length ≤ 500 := by
  induction l using chunks500.induct with
  | case1 =>
    rw [chunks500_nil]
    intro b hb
    exact absurd hb (List.not_mem_nil b)
  | case2 x xs ih =>
    rw [chunks500_cons_eq]
    intro b hb
    rcases List.mem_cons.mp hb with hb | hb
    · subst hb
      exact List.length_take_le 500 (x :: xs)
    · exact ih b hb

theorem chunks500_join {α : Type} (l : List α) :
    (chunks500 l).flatten = l := by
  induction l using chunks500.induct with
  | case1 => rw [chunks500_nil]; rfl
  | case2 x xs ih =>
    rw [chunks500_cons_eq]
    rw [List.flatten_cons, ih]
    exact List.take_append_drop 500 (x :: xs)

theorem chunks500_ne_nil {α : Type} (l : List α) (h : l ≠ []) :
    chunks500 l ≠ [] := by
  rw [chunks500_eq_of_ne_nil l h]
  exact List.cons_ne_nil _ _

theorem chunks500_getLast {α : Type} (l : List α) (h : l ≠ []) :
    ∃ b, (chunks500 l).getLast? = some b ∧
      b.length = if l.length % 500 = 0 then 500 else l.length % 500 := by
  induction l using chunks500.induct with
  | case1 => exact absurd rfl h
  | case2 x xs ih =>
    rw [chunks500_cons_eq]
    have hpos : 0 < (x :: xs).length := by simp
    by_cases hd : (x :: xs).drop 500 = []
    · have hlen : (x :: xs).length ≤ 500 := by
        have h1 := List.length_drop 500 (x :: xs)
        rw [hd] at h1
        simp only [List.length_nil] at h1
        omega
      refine ⟨(x :: xs).take 500, ?_, ?_⟩
      · rw [hd, chunks500_nil]
        rfl
      · rw [List.take_of_length_le hlen]
        rcases Nat.lt_or_ge (x :: xs).length 500 with hlt | hge
        · have hm : (x :: xs).length % 500 = (x :: xs).length :=
            Nat.mod_eq_of_lt hlt
          rw [hm, if_neg (by omega)]
        · have h500 : (x :: xs).length = 500 := by omega
          rw [h500]
          norm_num
    · obtain ⟨b, hb, hblen⟩ := ih hd
      refine ⟨b, ?_, ?_⟩
      · obtain ⟨c, cs, hcs⟩ :=
          List.exists_cons_of_ne_nil (chunks500_ne_nil _ hd)
        rw [hcs] at hb ⊢
        rw [List.getLast?_cons_cons]
        exact hb
      · have hlong : 500 < (x :: xs).length := by
          have h1 := List.length_drop 500 (x :: xs)
          have hdp : 0 < ((x :: xs).drop 500).length := List.length_pos.mpr hd
          omega
        rw [List.length_drop] at hblen
        have hmod : ((x :: xs).length - 500) % 500 = (x :: xs).length % 500 := by
          omega
        rw [hmod] at hblen
        exact hblen

theorem buLoop_eq_chunks (todos : List TodoDoc) (cur : List String)
    (h : cur.length < 500) :
    buLoop todos cur = chunks500 (cur ++ todoTargets todos) := by
  induction todos generalizing cur with
  | nil =>
    simp only [buLoop, todoTargets, List.filter_nil, List.map_nil,
      List.append_nil]
    by_cases hc : cur = []
    · subst hc
      rw [chunks500_nil]
      rfl
    · rw [chunks500_eq_of_ne_nil cur hc,
        List.take_of_length_le (Nat.le_of_lt h),
        List.drop_eq_nil_of_le (Nat.le_of_lt h), chunks500_nil]
      simp [hc]
  | cons d rest ih =>
    by_cases hskip : d.hasCreatedAt
    · have htgt : todoTargets (d :: rest) = todoTargets rest := by
        simp [todoTargets, List.filter_cons, hskip]
      rw [htgt]
      simpa only [buLoop, hskip, if_true] using ih cur h
    · have hb : d.hasCreatedAt = false := Bool.eq_false_iff.mpr hskip
      have htgt : todoTargets (d :: rest) = d.id :: todoTargets rest := by
        simp [todoTargets, List.filter_cons, hb]
      rw [htgt]
      simp only [buLoop, hb, Bool.false_eq_true, if_false]
      by_cases hfull : (cur ++ [d.id]).length = 500
      · rw [if_pos hfull, ih [] (by simp), List.nil_append]
        have hassoc : cur ++ d.id :: todoTargets rest =
            (cur ++ [d.id]) ++ todoTargets rest := by simp
        rw [hassoc,
          chunks500_eq_of_ne_nil ((cur ++ [d.id]) ++ todoTargets rest)
            (by simp)]
        have htake : ((cur ++ [d.id]) ++ todoTargets rest).take 500 =
            cur ++ [d.id] := by
          rw [← hfull]
          exact List.take_left _ _
        have hdrop : ((cur ++ [d.id]) ++ todoTargets rest).drop 500 =
            todoTargets rest := by
          rw [← hfull]
          exact List.drop_left _ _
        rw [htake, hdrop]
      · rw [if_neg hfull]
        have hlt : (cur ++ [d.id]).length < 500 := by
          simp only [List.length_append, List.length_cons, List.length_nil] at *
          omega
        rw [ih (cur ++ [d.id]) hlt]
        congr 1
        simp

theorem fuLoop_eq_chunks (uids : List String) :
    ∀ cur : List String, uids ≠ [] → cur.length < 500 →
      fuLoop uids cur = chunks500 (cur ++ uids) := by
  induction uids with
  | nil =>
    intro cur hne _
    exact absurd rfl hne
  | cons u rest ih =>
    intro cur _ h
    simp only [fuLoop]
    by_cases hrest : rest = []
    · subst hrest
      have hcond : ((cur ++ [u]).length = 500 ∨ ([] : List String).isEmpty) := by
        right
        rfl
      rw [if_pos hcond]
      have hlen : (cur ++ [u]).length ≤ 500 := by
        simp only [List.length_append, List.length_cons, List.length_nil]
        omega
      rw [chunks500_eq_of_ne_nil (cur ++ [u]) (by simp),
        List.take_of_length_le hlen,
        List.drop_eq_nil_of_le hlen, chunks500_nil]
      rfl
    · by_cases hfull : (cur ++ [u]).length = 500
      · rw [if_pos (Or.inl hfull), ih [] hrest (by simp), List.nil_append]
        have hassoc : cur ++ u :: rest = (cur ++ [u]) ++ rest := by simp
        rw [hassoc, chunks500_eq_of_ne_nil ((cur ++ [u]) ++ rest) (by simp)]
        have htake : ((cur ++ [u]) ++ rest).take 500 = cur ++ [u] := by
          rw [← hfull]
          exact List.take_left _ _
        have hdrop : ((cur ++ [u]) ++ rest).drop 500 = rest := by
          rw [← hfull]
          exact List.drop_left _ _
        rw [htake, hdrop]
      · have hcond : ¬((cur ++ [u]).length = 500 ∨ rest.isEmpty) := by
          rintro (hc | hc)
          · exact hfull hc
          · exact hrest (List.isEmpty_iff.mp hc)
        rw [if_neg hcond]
        have hlt : (cur ++ [u]).length < 500 := by
          simp only [List.length_append, List.length_cons, List.length_nil] at *
          omega
        rw [ih (cur ++ [u]) hrest hlt]
        congr 1
        simp

theorem bulkUpdateTodosBatches_eq_chunks (todos : List TodoDoc) :
    bulkUpdateTodosBatches todos = chunks500 (todoTargets todos) := by
  rw [bulkUpdateTodosBatches, buLoop_eq_chunks todos [] (by simp)]
  rfl

theorem fetchUsersBatches_eq_chunks (uids : List String) (h : uids ≠ []) :
    fetchUsersBatches uids = chunks500 uids := by
  rw [fetchUsersBatches, fuLoop_eq_chunks uids [] h (by simp)]
  rfl

/-- C9: for every array input, the receipt-item validator returns a list of
the same length in which each element's name is the trimmed original value
when that value is a non-empty string after trimming and `"unknown"`
otherwise, and each element's price is the original value when it is a finite
number strictly greater than zero and `0` otherwise; every non-array input
raises an error before producing any items. -/
theorem receipt_validator_contract :
    (∀ elems : List JSVal,
      validateReceiptItems (JSVal.arr elems) =
        Except.ok (elems.map specReceiptItem) ∧
      (elems.map specReceiptItem).length = elems.length) ∧
    (∀ v : JSVal, (∀ elems, v ≠ JSVal.arr elems) →
      validateReceiptItems v = Except.error "Response must be an array") := by
  constructor
  · intro elems
    refine ⟨?_, List.length_map _ _⟩
    simp only [validateReceiptItems]
    congr 1
    exact List.map_congr_left (fun item _ => validateReceiptItem_eq_spec item)
  · intro v hv
    cases v with
    | arr elems => exact absurd rfl (hv elems)
    | undefinedV => rfl
    | nullV => rfl
    | bool b => rfl
    | num q => rfl
    | nan => rfl
    | inf => rfl
    | ninf => rfl
    | str s => rfl
    | obj fields => rfl

/-- Witness for C9: the validator at a concrete malformed payload and at a
concrete non-array input. -/
theorem receipt_validator_contract_witness :
    validateReceiptItems (JSVal.arr
        [JSVal.obj [("i", JSVal.str "  milk "), ("p", JSVal.num 3)],
          JSVal.str "junk",
          JSVal.obj [("i", JSVal.str "   "), ("p", JSVal.nan)],
          JSVal.obj [("i", JSVal.num 7), ("p", JSVal.num (-2))]]) =
      Except.ok [⟨"milk", 3⟩, ⟨"unknown", 0⟩, ⟨"unknown", 0⟩, ⟨"unknown", 0⟩] ∧
    validateReceiptItems JSVal.nullV =
      Except.error "Response must be an array" := by
  constructor
  · rw [(receipt_validator_contract.1 _).1]
    rfl
  · exact receipt_validator_contract.2 JSVal.nullV
      (fun elems h => JSVal.noConfusion h)

/-- Counterexample for C2 as stated: `onUserDeleted` commits the 501 matching
grocery-item deletes as one batch of 501 operations, not `ceil(501/500) = 2`
batches of at most 500. -/
theorem single_batch_delete_counterexample :
    onUserDeletedGroceryItemBatches (List.replicate 501 "g") =
      [List.replicate 501 "g"] ∧
    (onUserDeletedGroceryItemBatches (List.replicate 501 "g")).length = 1 ∧
    (1 : Nat) ≠ (501 + 499) / 500 ∧
    ∃ b ∈ onUserDeletedGroceryItemBatches (List.replicate 501 "g"),
      500 < b.length := by
  have hne : (List.replicate 501 "g").isEmpty = false := by
    simp [List.isEmpty_iff]
  have heq : onUserDeletedGroceryItemBatches (List.replicate 501 "g") =
      [List.replicate 501 "g"] := by
    rw [onUserDeletedGroceryItemBatches, hne]
    rfl
  refine ⟨heq, by rw [heq]; rfl, by norm_num, ?_⟩
  refine ⟨List.replicate 501 "g", ?_, ?_⟩
  · rw [heq]
    exact List.mem_singleton.mpr rfl
  · simp

/-- C2 (amended): the chunked bulk writers — the todos bulk update (over its
staged targets, the docs without `createdAt`) and the user export — commit
exactly `ceil(N/500)` batches of at most 500 operations, with the final batch
holding `N mod 500` operations (500 when `N` is an exact multiple), in target
enumeration order (the batches concatenate back to the target sequence);
`onUserDeleted` instead commits all `N` matching docs of a collection as a
single batch. -/
theorem bulk_batching_amended (todos : List TodoDoc) (uids docs : List String)
    (h1 : 500 < (todoTargets todos).length) (h2 : 500 < uids.length)
    (h3 : docs ≠ []) :
    ((bulkUpdateTodosBatches todos).length =
        ((todoTargets todos).length + 499) / 500 ∧
      (∀ b ∈ bulkUpdateTodosBatches todos, b.length ≤ 500) ∧
      (∃ b, (bulkUpdateTodosBatches todos).getLast? = some b ∧
        b.length = if (todoTargets todos).length % 500 = 0 then 500
          else (todoTargets todos).length % 500) ∧
      (bulkUpdateTodosBatches todos).flatten = todoTargets todos) ∧
    ((fetchUsersBatches uids).length = (uids.length + 499) / 500 ∧
      (∀ b ∈ fetchUsersBatches uids, b.length ≤ 500) ∧
      (∃ b, (fetchUsersBatches uids).getLast? = some b ∧
        b.length = if uids.length % 500 = 0 then 500
          else uids.length % 500) ∧
      (fetchUsersBatches uids).flatten = uids) ∧
    onUserDeletedGroceryItemBatches docs = [docs] := by
  have ht : todoTargets todos ≠ [] := by
    intro hcon
    rw [hcon] at h1
    simp at h1
  have hu : uids ≠ [] := by
    intro hcon
    rw [hcon] at h2
    simp at h2
  refine ⟨?_, ?_, ?_⟩
  · rw [bulkUpdateTodosBatches_eq_chunks]
    exact ⟨chunks500_length _, chunks500_sizes _, chunks500_getLast _ ht,
      chunks500_join _⟩
  · rw [fetchUsersBatches_eq_chunks uids hu]
    exact ⟨chunks500_length _, chunks500_sizes _, chunks500_getLast _ hu,
      chunks500_join _⟩
  · rw [onUserDeletedGroceryItemBatches,
      List.isEmpty_eq_false.mpr h3]
    rfl

/-- Witness for C2 (amended) at 501 targets: two committed batches for the
chunked writers, one unchunked batch for `onUserDeleted`. -/
theorem bulk_batching_amended_witness :
    (bulkUpdateTodosBatches (List.replicate 501 ⟨"t", false⟩)).length = 2 ∧
    (fetchUsersBatches (List.replicate 501 "u")).length = 2 ∧
    onUserDeletedGroceryItemBatches ["d"] = [["d"]] := by
  have hlen : (todoTargets (List.replicate 501 ⟨"t", false⟩)).length = 501 := by
    simp [todoTargets]
  have h := bulk_batching_amended (List.replicate 501 ⟨"t", false⟩)
    (List.replicate 501 "u") ["d"]
    (by rw [hlen]; norm_num) (by simp) (by simp)
  obtain ⟨⟨hl1, _⟩, ⟨hl2, _⟩, h3⟩ := h
  refine ⟨?_, ?_, h3⟩
  · rw [hl1, hlen]
  · rw [hl2]
    simp

theorem checkBudgetAlert_store_cases (env : Env) (event : Option HistoryItem)
    (st : Store) :
    (checkBudgetAlert env event st).1 = st ∨
    ∃ key rec, alertLookup st key = none ∧
      (checkBudgetAlert env event st).1 =
        ⟨st.users, st.historyItems, (key, rec) :: st.budgetAlerts⟩ := by
  simp only [checkBudgetAlert]
  repeat' split
  all_goals try (left; rfl)
  right
  rename_i hnone hmail
  exact ⟨_, _, hnone, rfl⟩

theorem countKey_eq_zero_of_lookup_none (st : Store) (key : String)
    (hnone : alertLookup st key = none) : countKey st key = 0 := by
  unfold countKey
  rw [List.length_eq_zero, List.filter_eq_nil_iff]
  intro p hp
  have hfind : st.budgetAlerts.find? (fun p => p.1 == key) = none :=
    Option.map_eq_none'.mp hnone
  exact List.find?_eq_none.mp hfind p hp

theorem countKey_step_le (env : Env) (event : Option HistoryItem) (st : Store)
    (key : String) (h : countKey st key ≤ 1) :
    countKey (checkBudgetAlert env event st).1 key ≤ 1 := by
  rcases checkBudgetAlert_store_cases env event st with heq | ⟨k, rec, hnone, heq⟩
  · rw [heq]
    exact h
  · rw [heq]
    unfold countKey
    simp only [List.filter_cons]
    by_cases hk : k = key
    · subst hk
      have h0 := countKey_eq_zero_of_lookup_none st k hnone
      unfold countKey at h0
      simp only [beq_self_eq_true, if_pos, List.length_cons, h0]
      omega
    · have hbeq : ((k, rec).1 == key) = false := by
        simp [hk]
      rw [hbeq]
      simp only [Bool.false_eq_true, if_neg]
      exact h

theorem runSeq_countKey_le (invs : List (Env × Option HistoryItem))
    (st : Store) (key : String) (h : countKey st key ≤ 1) :
    countKey (runSeq invs st) key ≤ 1 := by
  induction invs generalizing st with
  | nil => exact h
  | cons i rest ih =>
    exact ih _ (countKey_step_le i.1 i.2 st key h)

theorem existing_alert_noop (env : Env) (hist : HistoryItem) (uid : String)
    (rec : AlertRecord) (st : Store)
    (hu : hist.userId = some uid) (hne : uid ≠ "")
    (hex : alertLookup st (dedupKey uid env.year env.month) = some rec) :
    (checkBudgetAlert env (some hist) st).1 = st ∧
    (∀ e d, Action.sendEmail e d ∉ (checkBudgetAlert env (some hist) st).2.1) ∧
    (∀ k r, Action.writeAlert k r ∉ (checkBudgetAlert env (some hist) st).2.1) ∧
    (Action.dedupLookup (dedupKey uid env.year env.month) ∈
        (checkBudgetAlert env (some hist) st).2.1 →
      (checkBudgetAlert env (some hist) st).2.2 = RunResult.noop) := by
  have hf : jsStrFalsy (some uid) = false := by
    simp [jsStrFalsy, hne]
  simp only [checkBudgetAlert, hu, hf, Option.getD_some, Bool.false_eq_true,
    if_false]
  repeat' split
  all_goals simp_all

/-- C1: under serialized (non-concurrent) invocations of the budget alert
check, at most one AlertRecord document ever exists for the
(userId, year, month) deduplication key, for any sequence of triggering
events; and any invocation that finds an existing AlertRecord for the current
month's key is a pure no-op: the store is unchanged, no email is sent, no
write is performed, and the run ends as a no-op. -/
theorem alert_at_most_one_per_month
    (invs : List (Env × Option HistoryItem)) (st0 : Store)
    (uid : String) (y m : Nat)
    (h0 : countKey st0 (dedupKey uid y m) ≤ 1) :
    countKey (runSeq invs st0) (dedupKey uid y m) ≤ 1 ∧
    (∀ env hist rec st, hist.userId = some uid → uid ≠ "" →
      env.year = y → env.month = m →
      alertLookup st (dedupKey uid y m) = some rec →
      (checkBudgetAlert env (some hist) st).1 = st ∧
      (∀ e d, Action.sendEmail e d ∉ (checkBudgetAlert env (some hist) st).2.1) ∧
      (∀ k r, Action.writeAlert k r ∉ (checkBudgetAlert env (some hist) st).2.1) ∧
      (Action.dedupLookup (dedupKey uid y m) ∈
          (checkBudgetAlert env (some hist) st).2.1 →
        (checkBudgetAlert env (some hist) st).2.2 = RunResult.noop)) := by
  refine ⟨runSeq_countKey_le invs st0 _ h0, ?_⟩
  intro env hist rec st hu hne hy hm hex
  subst hy
  subst hm
  exact existing_alert_noop env hist uid rec st hu hne hex

/-- Witness for C1: a serialized re-trigger against a store that already holds
the June-2025 alert leaves exactly one record and changes nothing. -/
theorem alert_at_most_one_per_month_witness :
    countKey (runSeq [(demoEnv, some demoTrigger)] demoStoreAlerted)
        (dedupKey "u1" 2025 5) ≤ 1 ∧
    (checkBudgetAlert demoEnv (some demoTrigger) demoStoreAlerted).1 =
      demoStoreAlerted := by
  have h := alert_at_most_one_per_month [(demoEnv, some demoTrigger)]
    demoStoreAlerted "u1" 2025 5 (by decide)
  refine ⟨h.1, ?_⟩
  exact (h.2 demoEnv demoTrigger demoRec demoStoreAlerted rfl (by decide)
    rfl rfl (by decide)).1

/-- C4: when month-to-date spend divided by the configured budget is strictly
below one half, the invocation creates no AlertRecord, performs no
deduplication lookup, and sends no alert email. -/
theorem no_alert_below_threshold (env : Env) (st : Store) (hist : HistoryItem)
    (uid : String) (udoc : UserDoc) (b : Rat)
    (hu : hist.userId = some uid) (hne : uid ≠ "")
    (hud : userLookup st uid = some udoc) (hb : udoc.budget = some b)
    (hlt : monthSpend st uid env.startIso env.endIso / b < 1/2) :
    (checkBudgetAlert env (some hist) st).1 = st ∧
    (checkBudgetAlert env (some hist) st).2.2 ≠ RunResult.sent ∧
    (∀ k, Action.dedupLookup k ∉ (checkBudgetAlert env (some hist) st).2.1) ∧
    (∀ e d, Action.sendEmail e d ∉ (checkBudgetAlert env (some hist) st).2.1) ∧
    (∀ k r, Action.writeAlert k r ∉ (checkBudgetAlert env (some hist) st).2.1) := by
  have hf : jsStrFalsy (some uid) = false := by
    simp [jsStrFalsy, hne]
  have hpct : ¬(50 ≤ monthSpend st uid env.startIso env.endIso / b * 100) := by
    intro hge
    have h100 : monthSpend st uid env.startIso env.endIso / b * 100 <
        (1/2 : Rat) * 100 := by
      exact mul_lt_mul_of_pos_right hlt (by norm_num)
    norm_num at h100
    linarith
  simp only [checkBudgetAlert, hu, hf, Option.getD_some, Bool.false_eq_true,
    if_false, hud, hb]
  repeat' split
  all_goals simp_all

/-- C5: when the user's `budget` field is absent or falsy the invocation
returns right after the user fetch: no auth lookup, no spending-history query,
no percentage computation, no alert logic. -/
theorem no_budget_no_query (env : Env) (st : Store) (hist : HistoryItem)
    (uid : String) (udoc : UserDoc)
    (hu : hist.userId = some uid) (hne : uid ≠ "")
    (hud : userLookup st uid = some udoc)
    (hb : jsNumFalsy udoc.budget = true) :
    checkBudgetAlert env (some hist) st =
      (st, [Action.userFetch uid], RunResult.noop) := by
  have hf : jsStrFalsy (some uid) = false := by
    simp [jsStrFalsy, hne]
  simp only [checkBudgetAlert, hu, hf, Option.getD_some, Bool.false_eq_true,
    if_false, hud, hb, if_true]

/-- Witness for C4: with zero spend this month against a 1000 budget, the run
changes nothing and never reaches the deduplication lookup. -/
theorem no_alert_below_threshold_witness :
    (checkBudgetAlert demoEnv (some demoTrigger) demoStoreNoSpend).1 =
      demoStoreNoSpend ∧
    Action.dedupLookup "u1_2025_5" ∉
      (checkBudgetAlert demoEnv (some demoTrigger) demoStoreNoSpend).2.1 := by
  have hms : monthSpend demoStoreNoSpend "u1" demoEnv.startIso demoEnv.endIso
      = 0 := rfl
  have h := no_alert_below_threshold demoEnv demoStoreNoSpend demoTrigger "u1"
    { budget := some 1000 } 1000 rfl (by decide) (by decide) rfl
    (by rw [hms]; norm_num)
  exact ⟨h.1, h.2.2.1 "u1_2025_5"⟩

/-- Witness for C5: a user whose `budget` field is `0` gets the exact
one-fetch no-op. -/
theorem no_budget_no_query_witness :
    checkBudgetAlert demoEnv (some demoTrigger)
        { users := [("u1", { budget := some 0 })], historyItems := [],
          budgetAlerts := [] } =
      ({ users := [("u1", { budget := some 0 })], historyItems := [],
          budgetAlerts := [] },
        [Action.userFetch "u1"], RunResult.noop) :=
  no_budget_no_query demoEnv _ demoTrigger "u1" { budget := some 0 } rfl
    (by decide) (by decide) (by decide)

theorem checkBudgetAlert_sends (env : Env) (st : Store) (hist : HistoryItem)
    (uid : String) (udoc : UserDoc) (b : Rat) (arec : AuthUser) (em : String)
    (hu : hist.userId = some uid) (hne : uid ≠ "")
    (hud : userLookup st uid = some udoc) (hb : udoc.budget = some b)
    (hb0 : b ≠ 0) (hau : authGetUser env uid = some arec)
    (hae : arec.email = some em) (hene : em ≠ "")
    (hpct : 50 ≤ monthSpend st uid env.startIso env.endIso / b * 100)
    (hnone : alertLookup st (dedupKey uid env.year env.month) = none)
    (hmail : env.emailOk = true) :
    checkBudgetAlert env (some hist) st =
      (⟨st.users, st.historyItems,
        (dedupKey uid env.year env.month,
          { userId := uid
            email := em
            monthlyBudget := b
            amountSpent := monthSpend st uid env.startIso env.endIso
            percentageSpent :=
              monthSpend st uid env.startIso env.endIso / b * 100
            month := env.month
            year := env.year }) :: st.budgetAlerts⟩,
        [Action.userFetch uid, Action.authLookup uid, Action.historyQuery uid,
          Action.dedupLookup (dedupKey uid env.year env.month),
          Action.sendEmail em
            { userName := salutation arec.displayName
              monthlyBudget := b
              amountSpent := monthSpend st uid env.startIso env.endIso
              percentageSpent :=
                monthSpend st uid env.startIso env.endIso / b * 100 },
          Action.writeAlert (dedupKey uid env.year env.month)
            { userId := uid
              email := em
              monthlyBudget := b
              amountSpent := monthSpend st uid env.startIso env.endIso
              percentageSpent :=
                monthSpend st uid env.startIso env.endIso / b * 100
              month := env.month
              year := env.year }],
        RunResult.sent) := by
  have hf : jsStrFalsy (some uid) = false := by
    simp [jsStrFalsy, hne]
  have hnf : jsNumFalsy (some b) = false := by
    simp [jsNumFalsy, hb0]
  have hef : jsStrFalsy (some em) = false := by
    simp [jsStrFalsy, hene]
  simp only [checkBudgetAlert, hu, hf, Option.getD_some, Bool.false_eq_true,
    if_false, hud, hb, hnf, hau, hae, hef, if_pos hpct, hnone, hmail, if_true]
  simp [List.append_assoc]

theorem checkBudgetAlert_below_threshold_run (env : Env) (st : Store)
    (hist : HistoryItem) (uid : String) (udoc : UserDoc) (b : Rat)
    (arec : AuthUser) (em : String)
    (hu : hist.userId = some uid) (hne : uid ≠ "")
    (hud : userLookup st uid = some udoc) (hb : udoc.budget = some b)
    (hb0 : b ≠ 0) (hau : authGetUser env uid = some arec)
    (hae : arec.email = some em) (hene : em ≠ "")
    (hpct : ¬(50 ≤ monthSpend st uid env.startIso env.endIso / b * 100)) :
    checkBudgetAlert env (some hist) st =
      (st, [Action.userFetch uid, Action.authLookup uid,
        Action.historyQuery uid], RunResult.noop) := by
  have hf : jsStrFalsy (some uid) = false := by
    simp [jsStrFalsy, hne]
  have hnf : jsNumFalsy (some b) = false := by
    simp [jsNumFalsy, hb0]
  have hef : jsStrFalsy (some em) = false := by
    simp [jsStrFalsy, hene]
  simp only [checkBudgetAlert, hu, hf, Option.getD_some, Bool.false_eq_true,
    if_false, hud, hb, hnf, hau, hae, hef, if_neg hpct]
  simp

theorem checkBudgetAlert_trace_cases (env : Env) (event : Option HistoryItem)
    (st : Store) :
    ((checkBudgetAlert env event st).1 = st ∧
      (∀ k r, Action.writeAlert k r ∉ (checkBudgetAlert env event st).2.1) ∧
      (∀ e d, Action.sendEmail e d ∉ (checkBudgetAlert env event st).2.1)) ∨
    (env.emailOk = false ∧ (checkBudgetAlert env event st).1 = st ∧
      (checkBudgetAlert env event st).2.2 = RunResult.errorThrown ∧
      (∀ k r, Action.writeAlert k r ∉ (checkBudgetAlert env event st).2.1)) ∨
    (env.emailOk = true ∧
      (checkBudgetAlert env event st).2.2 = RunResult.sent ∧
      ∃ pre e d key rec, (checkBudgetAlert env event st).2.1 =
        pre ++ [Action.sendEmail e d, Action.writeAlert key rec] ∧
        (∀ k r, Action.writeAlert k r ∈ (checkBudgetAlert env event st).2.1 →
          k = key ∧ r = rec)) := by
  simp only [checkBudgetAlert]
  repeat' split
  all_goals try (left; refine ⟨rfl, ?_, ?_⟩ <;> (simp; done))
  · rename_i hnone hmail
    right
    right
    refine ⟨hmail, rfl, ?_⟩
    exact ⟨[Action.userFetch _, Action.authLookup _, Action.historyQuery _,
      Action.dedupLookup _], _, _, _, _, rfl,
      fun k r hm => by simpa using hm⟩
  · rename_i hnone hmail
    right
    left
    exact ⟨by simpa using hmail, rfl, rfl, by simp⟩

/-- C6: in every invocation that sends an alert the AlertRecord write happens
only directly after a successful email send; when the send throws, the error
propagates out of the invocation, no AlertRecord is written, and the store is
unchanged. -/
theorem alert_written_only_after_send (env : Env) (event : Option HistoryItem)
    (st : Store) :
    (env.emailOk = false →
      (checkBudgetAlert env event st).1 = st ∧
      (∀ k r, Action.writeAlert k r ∉ (checkBudgetAlert env event st).2.1) ∧
      ((∃ e d, Action.sendEmail e d ∈ (checkBudgetAlert env event st).2.1) →
        (checkBudgetAlert env event st).2.2 = RunResult.errorThrown)) ∧
    (∀ k r, Action.writeAlert k r ∈ (checkBudgetAlert env event st).2.1 →
      env.emailOk = true ∧
      (checkBudgetAlert env event st).2.2 = RunResult.sent ∧
      ∃ pre e d, (checkBudgetAlert env event st).2.1 =
        pre ++ [Action.sendEmail e d, Action.writeAlert k r]) := by
  rcases checkBudgetAlert_trace_cases env event st with
    ⟨h1, h2, h3⟩ | ⟨hm, h1, hres, hnw⟩ |
    ⟨hm, hres, pre, e, d, key, rec, htr, huniq⟩
  · refine ⟨fun _ => ⟨h1, h2, ?_⟩, fun k r hmem => absurd hmem (h2 k r)⟩
    rintro ⟨e, d, hmem⟩
    exact absurd hmem (h3 e d)
  · exact ⟨fun _ => ⟨h1, hnw, fun _ => hres⟩,
      fun k r hmem => absurd hmem (hnw k r)⟩
  · refine ⟨fun hf => absurd hm (by simp [hf]), fun k r hmem => ?_⟩
    obtain ⟨hk, hr⟩ := huniq k r hmem
    subst hk
    subst hr
    exact ⟨hm, hres, pre, e, d, htr⟩

/-- Witness for C6: with the email collaborator failing, the store is
unchanged and no AlertRecord write appears in the trace. -/
theorem alert_written_only_after_send_witness :
    (checkBudgetAlert { demoEnv with emailOk := false } (some demoTrigger)
        demoStore).1 = demoStore ∧
    Action.writeAlert "u1_2025_5" demoRec ∉
      (checkBudgetAlert { demoEnv with emailOk := false } (some demoTrigger)
        demoStore).2.1 := by
  have h := (alert_written_only_after_send { demoEnv with emailOk := false }
    (some demoTrigger) demoStore).1 rfl
  exact ⟨h.1, h.2.1 "u1_2025_5" demoRec⟩

/-- Counterexample for C7 as stated: an invocation that ends as a
below-threshold no-op (zero spend against a 1000 budget) still performs the
auth-provider lookup — the code resolves the user's email before the spending
query and threshold check, not inside the dedup-miss branch. -/
theorem auth_lookup_on_threshold_noop_counterexample :
    checkBudgetAlert demoEnv (some demoTrigger) demoStoreNoSpend =
      (demoStoreNoSpend,
        [Action.userFetch "u1", Action.authLookup "u1",
          Action.historyQuery "u1"], RunResult.noop) ∧
    Action.authLookup "u1" ∈
      (checkBudgetAlert demoEnv (some demoTrigger) demoStoreNoSpend).2.1 := by
  have hms : monthSpend demoStoreNoSpend "u1" demoEnv.startIso demoEnv.endIso
      = 0 := rfl
  have h := checkBudgetAlert_below_threshold_run demoEnv demoStoreNoSpend
    demoTrigger "u1" { budget := some 1000 } 1000
    { email := some "u1@example.com", displayName := some "Ada" }
    "u1@example.com" rfl (by decide) rfl rfl (by norm_num) rfl rfl
    (by decide) (by rw [hms]; norm_num)
  refine ⟨h, ?_⟩
  rw [h]
  simp

/-- C7 (amended): the auth-provider lookup happens in every invocation that
passes the budget check — before the spending query, the threshold test and
the deduplication lookup — and when the resolved user has no email the
invocation is a no-op with a logged error, with no query, no send and no
write. -/
theorem auth_lookup_when_budget_configured (env : Env) (st : Store)
    (hist : HistoryItem) (uid : String) (udoc : UserDoc)
    (hu : hist.userId = some uid) (hne : uid ≠ "")
    (hud : userLookup st uid = some udoc)
    (hb : jsNumFalsy udoc.budget = false) :
    (∃ rest, (checkBudgetAlert env (some hist) st).2.1 =
      Action.userFetch uid :: Action.authLookup uid :: rest) ∧
    (authGetUser env uid = none →
      checkBudgetAlert env (some hist) st =
        (st, [Action.userFetch uid, Action.authLookup uid],
          RunResult.errorThrown)) ∧
    (∀ arec, authGetUser env uid = some arec →
      jsStrFalsy arec.email = true →
      checkBudgetAlert env (some hist) st =
        (st, [Action.userFetch uid, Action.authLookup uid],
          RunResult.noop)) := by
  have hf : jsStrFalsy (some uid) = false := by
    simp [jsStrFalsy, hne]
  simp only [checkBudgetAlert, hu, hf, Option.getD_some, Bool.false_eq_true,
    if_false, hud, hb]
  repeat' split
  all_goals
    refine ⟨?_, fun hnone2 => ?_, fun arec harec hemail => ?_⟩ <;>
      first
        | exact ⟨_, rfl⟩
        | rfl
        | simp_all

/-- Witness for C7 (amended): with the auth provider missing the user, the
budget-configured invocation stops right after the auth lookup with a thrown
error. -/
theorem auth_lookup_when_budget_configured_witness :
    checkBudgetAlert { demoEnv with auth := [] } (some demoTrigger)
        demoStoreNoSpend =
      (demoStoreNoSpend, [Action.userFetch "u1", Action.authLookup "u1"],
        RunResult.errorThrown) :=
  (auth_lookup_when_budget_configured { demoEnv with auth := [] }
    demoStoreNoSpend demoTrigger "u1" { budget := some 1000 } rfl (by decide)
    rfl (by decide)).2.1 rfl

/-- C8: the 55% scenario — budget 1000, current-month records worth 450
(including one with a missing amount counted as 0) plus the new 100-unit
record — computes `totalSpent = 550` and `percentageSpent = 55`, sends the
alert, and creates the AlertRecord with snapshot values
`percentageSpent = 55`, `amountSpent = 550`, `monthlyBudget = 1000`. -/
theorem scenario_fifty_five_percent :
    monthSpend demoStore "u1" demoEnv.startIso demoEnv.endIso = 550 ∧
    checkBudgetAlert demoEnv (some demoTrigger) demoStore =
      (demoStoreAlerted,
        [Action.userFetch "u1", Action.authLookup "u1",
          Action.historyQuery "u1", Action.dedupLookup "u1_2025_5",
          Action.sendEmail "u1@example.com"
            { userName := "Ada", monthlyBudget := 1000, amountSpent := 550,
              percentageSpent := 55 },
          Action.writeAlert "u1_2025_5" demoRec],
        RunResult.sent) := by
  have hsum : monthSpend demoStore "u1" demoEnv.startIso demoEnv.endIso =
      ((450 : Rat) + (0 + (100 + 0))) := rfl
  have hms : monthSpend demoStore "u1" demoEnv.startIso demoEnv.endIso
      = 550 := by
    rw [hsum]
    norm_num
  have hpct : (50 : Rat) ≤
      monthSpend demoStore "u1" demoEnv.startIso demoEnv.endIso / 1000 * 100 := by
    rw [hms]
    norm_num
  have h55 : (550 : Rat) / 1000 * 100 = 55 := by norm_num
  refine ⟨hms, ?_⟩
  rw [checkBudgetAlert_sends demoEnv demoStore demoTrigger "u1"
    { budget := some 1000 } 1000
    { email := some "u1@example.com", displayName := some "Ada" }
    "u1@example.com" rfl (by decide) rfl rfl (by norm_num) rfl rfl (by decide)
    hpct rfl rfl]
  rw [hms, h55]
  rfl

theorem mem_dedupFirstAux (l : List String) :
    ∀ seen a, a ∈ dedupFirstAux seen l ↔ (a ∈ l ∧ ¬a ∈ seen) := by
  induction l with
  | nil =>
    intro seen a
    simp [dedupFirstAux]
  | cons x xs ih =>
    intro seen a
    by_cases hx : seen.contains x
    · have hxm : x ∈ seen := by
        simpa using hx
      simp only [dedupFirstAux, hx, if_true, ih seen a, List.mem_cons]
      constructor
      · rintro ⟨hm, hs⟩
        exact ⟨Or.inr hm, hs⟩
      · rintro ⟨hm | hm, hs⟩
        · exact absurd (hm ▸ hxm) hs
        · exact ⟨hm, hs⟩
    · have hxb : seen.contains x = false := by
        simpa using hx
      simp only [dedupFirstAux, hxb, Bool.false_eq_true, if_false,
        List.mem_cons, ih (x :: seen) a]
      constructor
      · rintro (rfl | ⟨hm, hs⟩)
        · exact ⟨Or.inl rfl, by simpa using hx⟩
        · exact ⟨Or.inr hm, fun hc => hs (Or.inr hc)⟩
      · rintro ⟨rfl | hm, hs⟩
        · exact Or.inl rfl
        · by_cases hax : a = x
          · exact Or.inl hax
          · exact Or.inr ⟨hm, by simp [hax, hs]⟩

theorem mem_dedupFirst (l : List String) (a : String) :
    a ∈ dedupFirst l ↔ a ∈ l := by
  rw [dedupFirst, mem_dedupFirstAux]
  simp

theorem nodup_dedupFirstAux (l : List String) :
    ∀ seen, (dedupFirstAux seen l).Nodup := by
  induction l with
  | nil =>
    intro seen
    simp [dedupFirstAux]
  | cons x xs ih =>
    intro seen
    by_cases hx : seen.contains x = true
    · unfold dedupFirstAux
      rw [if_pos hx]
      exact ih seen
    · unfold dedupFirstAux
      rw [if_neg hx, List.nodup_cons]
      refine ⟨fun hc => ?_, ih (x :: seen)⟩
      have hm := (mem_dedupFirstAux xs (x :: seen) x).mp hc
      exact hm.2 (List.mem_cons_self x seen)

theorem nodup_dedupFirst (l : List String) : (dedupFirst l).Nodup :=
  nodup_dedupFirstAux l []

theorem mem_membersToNotify (owner : Option String) (members : List String)
    (adderId m : String) :
    m ∈ membersToNotify owner members adderId ↔
      (m ≠ "" ∧ m ≠ adderId ∧ (owner = some m ∨ m ∈ members)) := by
  unfold membersToNotify
  simp only [List.mem_filter, mem_dedupFirst, List.mem_append, bne_iff_ne,
    ne_eq]
  constructor
  · rintro ⟨⟨hsrc, hne2⟩, hnadder⟩
    refine ⟨hne2, hnadder, ?_⟩
    rcases hsrc with ho | hm
    · left
      cases owner with
      | none => simp at ho
      | some o =>
        simp only [Option.toList_some, List.mem_singleton] at ho
        rw [ho]
    · right
      exact hm
  · rintro ⟨hne2, hnadder, ho | hm⟩
    · exact ⟨⟨Or.inl (by simp [ho]), hne2⟩, hnadder⟩
    · exact ⟨⟨Or.inr hm, hne2⟩, hnadder⟩

theorem notifyLoop_eq_flatten (users : List (String × GUser))
    (notifAddOk pushOk : String → Bool) (l : List String) :
    notifyLoop users notifAddOk pushOk l =
      (l.map (memberSegment users notifAddOk pushOk)).flatten := by
  induction l with
  | nil => rfl
  | cons m rest ih =>
    simp [notifyLoop, ih]

theorem mem_segment_mem_loop (users : List (String × GUser))
    (notifAddOk pushOk : String → Bool) (l : List String) (m : String)
    (hm : m ∈ l) (a : GAction)
    (ha : a ∈ memberSegment users notifAddOk pushOk m) :
    a ∈ notifyLoop users notifAddOk pushOk l := by
  rw [notifyLoop_eq_flatten]
  exact List.mem_flatten.mpr ⟨_, List.mem_map_of_mem _ hm, ha⟩

theorem logMemberError_mem_segment (users : List (String × GUser))
    (notifAddOk pushOk : String → Bool) (m : String)
    (hw : (memberWork users notifAddOk pushOk m).2 = false) :
    GAction.logMemberError m ∈ memberSegment users notifAddOk pushOk m := by
  simp only [memberSegment]
  rw [hw]
  simp

theorem createNotification_mem_segment (users : List (String × GUser))
    (notifAddOk pushOk : String → Bool) (m : String)
    (hw : (memberWork users notifAddOk pushOk m).2 = true) :
    GAction.createNotification m ∈ memberSegment users notifAddOk pushOk m := by
  simp only [memberSegment]
  unfold memberWork at hw ⊢
  by_cases hn : notifAddOk m = true
  · simp only [hn, if_true]
    repeat' split
    all_goals simp
  · rw [if_neg hn] at hw
    simp at hw

/-- C3: in the fan-out, each recipient's unit of work is attempted in order
regardless of other recipients' outcomes — the trace is exactly the
concatenation of the per-recipient segments in recipient order — a recipient
whose unit throws contributes a logged error instead of aborting the run, and
the handler completes normally for every combination of per-recipient
failures. -/
theorem fanout_isolation (lists : List (String × GroceryList))
    (users : List (String × GUser)) (notifAddOk pushOk : String → Bool)
    (itemData : GroceryItemData) (listId : String) (listData : GroceryList)
    (hid : itemData.groceryListId = some listId) (hne : listId ≠ "")
    (hfind : listLookup lists listId = some listData)
    (hmem : membersToNotify listData.owner listData.members itemData.userId
      ≠ []) :
    (onGroceryItemAdded lists users notifAddOk pushOk (some itemData)).2 =
      GResult.completed ∧
    (onGroceryItemAdded lists users notifAddOk pushOk (some itemData)).1 =
      [GAction.listFetch listId, GAction.adderFetch itemData.userId] ++
        ((membersToNotify listData.owner listData.members itemData.userId).map
          (memberSegment users notifAddOk pushOk)).flatten ∧
    (∀ m ∈ membersToNotify listData.owner listData.members itemData.userId,
      (memberWork users notifAddOk pushOk m).2 = false →
        GAction.logMemberError m ∈
          (onGroceryItemAdded lists users notifAddOk pushOk
            (some itemData)).1) ∧
    (∀ m ∈ membersToNotify listData.owner listData.members itemData.userId,
      (memberWork users notifAddOk pushOk m).2 = true →
        GAction.createNotification m ∈
          (onGroceryItemAdded lists users notifAddOk pushOk
            (some itemData)).1) := by
  have hfl : jsStrFalsy (some listId) = false := by
    simp [jsStrFalsy, hne]
  have hemp : (membersToNotify listData.owner listData.members
      itemData.userId).isEmpty = false := by
    rwa [List.isEmpty_eq_false]
  simp only [onGroceryItemAdded, hid, hfl, Option.getD_some,
    Bool.false_eq_true, if_false, hfind, hemp]
  refine ⟨by trivial, ?_, ?_, ?_⟩
  · rw [notifyLoop_eq_flatten]
    simp
  · intro m hm hw
    simp only [List.mem_append]
    right
    exact mem_segment_mem_loop users notifAddOk pushOk _ m hm _
      (logMemberError_mem_segment users notifAddOk pushOk m hw)
  · intro m hm hw
    simp only [List.mem_append]
    right
    exact mem_segment_mem_loop users notifAddOk pushOk _ m hm _
      (createNotification_mem_segment users notifAddOk pushOk m hw)

/-- Witness for C3: bob's notification add throws while carol's unit
succeeds; the run completes with bob's error logged and carol's notification
created. -/
theorem fanout_isolation_witness :
    (onGroceryItemAdded
        [("L1", { owner := some "alice", members := ["bob", "alice", "carol"] })]
        [("carol", { pushTokens := ["tokC"] })]
        (fun m => !(m == "bob")) (fun _ => true)
        (some { groceryListId := some "L1", name := "eggs",
                userId := "alice" })).2 = GResult.completed ∧
    GAction.logMemberError "bob" ∈
      (onGroceryItemAdded
        [("L1", { owner := some "alice", members := ["bob", "alice", "carol"] })]
        [("carol", { pushTokens := ["tokC"] })]
        (fun m => !(m == "bob")) (fun _ => true)
        (some { groceryListId := some "L1", name := "eggs",
                userId := "alice" })).1 ∧
    GAction.createNotification "carol" ∈
      (onGroceryItemAdded
        [("L1", { owner := some "alice", members := ["bob", "alice", "carol"] })]
        [("carol", { pushTokens := ["tokC"] })]
        (fun m => !(m == "bob")) (fun _ => true)
        (some { groceryListId := some "L1", name := "eggs",
                userId := "alice" })).1 := by
  have h := fanout_isolation
    [("L1", { owner := some "alice", members := ["bob", "alice", "carol"] })]
    [("carol", { pushTokens := ["tokC"] })]
    (fun m => !(m == "bob")) (fun _ => true)
    { groceryListId := some "L1", name := "eggs", userId := "alice" }
    "L1" { owner := some "alice", members := ["bob", "alice", "carol"] }
    rfl (by decide) rfl (by decide)
  exact ⟨h.1, h.2.2.1 "bob" (by decide) (by decide),
    h.2.2.2 "carol" (by decide) (by decide)⟩

/-- C10: the fan-out recipient set is the order-preserving deduplication of
the list owner and members (dropping falsy entries) with the item's creator
removed — so the adder is never notified and each distinct member occurs at
most once — and when this set is empty the handler stops after the list fetch
with no notification document and no push. -/
theorem recipients_dedup_excludes_adder :
    (∀ (owner : Option String) (members : List String) (adderId : String),
      adderId ∉ membersToNotify owner members adderId ∧
      (membersToNotify owner members adderId).Nodup ∧
      (∀ m, m ∈ membersToNotify owner members adderId ↔
        (m ≠ "" ∧ m ≠ adderId ∧ (owner = some m ∨ m ∈ members)))) ∧
    (∀ (lists : List (String × GroceryList)) (users : List (String × GUser))
      (notifAddOk pushOk : String → Bool) (itemData : GroceryItemData)
      (listId : String) (listData : GroceryList),
      itemData.groceryListId = some listId → listId ≠ "" →
      listLookup lists listId = some listData →
      membersToNotify listData.owner listData.members itemData.userId = [] →
      onGroceryItemAdded lists users notifAddOk pushOk (some itemData) =
        ([GAction.listFetch listId], GResult.skipped)) := by
  constructor
  · intro owner members adderId
    refine ⟨?_, ?_, fun m => mem_membersToNotify owner members adderId m⟩
    · intro hc
      exact absurd rfl ((mem_membersToNotify owner members adderId
        adderId).mp hc).2.1
    · exact List.Nodup.filter _ (nodup_dedupFirst _)
  · intro lists users notifAddOk pushOk itemData listId listData hid hne
      hfind hempty
    have hfl : jsStrFalsy (some listId) = false := by
      simp [jsStrFalsy, hne]
    have hemp : (membersToNotify listData.owner listData.members
        itemData.userId).isEmpty = true := by
      rw [hempty]
      rfl
    simp only [onGroceryItemAdded, hid, hfl, Option.getD_some,
      Bool.false_eq_true, if_false, hfind, hemp, if_true]

/-- Witness for C10: the adder alice is excluded, bob appears once despite
being listed twice, and a list whose only non-adder entry is the adder
herself makes the handler stop after the list fetch. -/
theorem recipients_dedup_excludes_adder_witness :
    "alice" ∉ membersToNotify (some "alice") ["bob", "alice", "bob"] "alice" ∧
    (membersToNotify (some "alice") ["bob", "alice", "bob"] "alice").Nodup ∧
    onGroceryItemAdded [("L2", { owner := some "alice", members := ["alice"] })]
      [] (fun _ => true) (fun _ => true)
      (some { groceryListId := some "L2", name := "jam", userId := "alice" }) =
      ([GAction.listFetch "L2"], GResult.skipped) := by
  have h1 := (recipients_dedup_excludes_adder.1 (some "alice")
    ["bob", "alice", "bob"] "alice")
  refine ⟨h1.1, h1.2.1, ?_⟩
  exact recipients_dedup_excludes_adder.2
    [("L2", { owner := some "alice", members := ["alice"] })] []
    (fun _ => true) (fun _ => true)
    { groceryListId := some "L2", name := "jam", userId := "alice" }
    "L2" { owner := some "alice", members := ["alice"] } rfl (by decide) rfl
    (by decide)

end Buyly
